import Mathlib

/-!
Shallow embedding of cargo-contract's contract ABI codec
(`src/cmd/extrinsics/codec.rs`) and of the environment compatibility
checker (`crates/transcode/src/env_check.rs`), together with theorems
settling the specification claims about them.

Machine integers are modelled as `Nat`/`Int` with explicit powers of two;
bytes are `Nat` values below 256; fallible Rust code returning
`anyhow::Result` is modelled as `Except`; a Rust `panic!`/`unimplemented!`
is modelled as a distinguished `.panicked` outcome, separate from a
returned error; the unbounded recursion of the Rust resolution helpers is
modelled with an explicit fuel parameter whose exhaustion is the
distinguished `.outOfFuel`/`.fuelExhausted` outcome.
-/

deriving instance DecidableEq for Except

/-- Primitive type kinds of the scale-info portable type registry. -/
inductive TypeDefPrimitive where
  | bool
  | char
  | str
  | u8
  | u16
  | u32
  | u64
  | u128
  | i8
  | i16
  | i32
  | i64
  | i128
deriving DecidableEq

/-- Decimal digit of a character, as in Rust `char::to_digit(10)`. -/
def decDigit? (c : Char) : Option Nat :=
  if 48 ≤ c.toNat ∧ c.toNat ≤ 57 then some (c.toNat - 48) else none

/-- Accumulate decimal digits left to right; `none` on a non-digit. -/
def digitsToNat : List Char → Nat → Option Nat
  | [], acc => some acc
  | c :: cs, acc =>
    match decDigit? c with
    | some d => digitsToNat cs (acc * 10 + d)
    | none => none

/-- Rust `uN::from_str`: optional leading plus sign, at least one decimal
digit, value below `2 ^ bits` (overflow is a parse error). -/
def uintFromStr (bits : Nat) (s : String) : Option Nat :=
  let cs :=
    match s.toList with
    | '+' :: rest => rest
    | cs => cs
  match cs with
  | [] => none
  | _ :: _ =>
    match digitsToNat cs 0 with
    | some v => if v < 2 ^ bits then some v else none
    | none => none

/-- Rust `iN::from_str`: optional sign, at least one decimal digit, value
in the two's-complement range of the width. -/
def intFromStr (bits : Nat) (s : String) : Option Int :=
  match s.toList with
  | '-' :: rest =>
    (match rest with
     | [] => none
     | _ :: _ =>
       match digitsToNat rest 0 with
       | some v => if v ≤ 2 ^ (bits - 1) then some (-(v : Int)) else none
       | none => none)
  | '+' :: rest =>
    (match rest with
     | [] => none
     | _ :: _ =>
       match digitsToNat rest 0 with
       | some v => if v < 2 ^ (bits - 1) then some (v : Int) else none
       | none => none)
  | [] => none
  | cs =>
    match digitsToNat cs 0 with
    | some v => if v < 2 ^ (bits - 1) then some (v : Int) else none
    | none => none

/-- Rust `bool::from_str`: exactly the strings "true" and "false". -/
def boolFromStr (s : String) : Option Bool :=
  if s = "true" then some true else if s = "false" then some false else none

/-- Little-endian byte representation of a value in `n` bytes
(SCALE fixed-width integer encoding). -/
def toLEBytes : Nat → Nat → List Nat
  | 0, _ => []
  | n + 1, v => v % 256 :: toLEBytes n (v / 256)

/-- UTF-8 bytes of a string. -/
def utf8Bytes (s : String) : List Nat :=
  s.toUTF8.data.toList.map (fun b => b.toNat)

/-- SCALE compact encoding of an unsigned integer (used as the length
prefix for strings and sequences). -/
def compactEncodeNat (n : Nat) : List Nat :=
  if n < 2 ^ 6 then [n * 4]
  else if n < 2 ^ 14 then toLEBytes 2 (n * 4 + 1)
  else if n < 2 ^ 30 then toLEBytes 4 (n * 4 + 2)
  else
    let m := Nat.log 256 n + 1
    ((m - 4) * 4 + 3) :: toLEBytes m n

/-- Hexadecimal digit of a character. -/
def hexDigit? (c : Char) : Option Nat :=
  if 48 ≤ c.toNat ∧ c.toNat ≤ 57 then some (c.toNat - 48)
  else if 97 ≤ c.toNat ∧ c.toNat ≤ 102 then some (c.toNat - 87)
  else if 65 ≤ c.toNat ∧ c.toNat ≤ 70 then some (c.toNat - 55)
  else none

/-- Rust `hex::decode` over the character list: pairs of hex digits,
failing on odd length or a non-hex character. -/
def hexDecodeChars : List Char → Option (List Nat)
  | [] => some []
  | [_] => none
  | hi :: lo :: rest =>
    match hexDigit? hi, hexDigit? lo, hexDecodeChars rest with
    | some h, some l, some bs => some ((h * 16 + l) :: bs)
    | _, _, _ => none

namespace Extrinsics

/-- Error values returned as `Err(..)` by the codec
(`anyhow` errors in the source). -/
inductive CodecError where
  | unknownType (id : Nat)
  | messageNotFound (name : String) (candidates : List (List String))
  | parseError
  | onlyByteArrays
  | invalidBool
  | endOfInput
  | unknownEventVariant (index : Nat)
deriving DecidableEq

/-- Outcome of a fallible codec operation: a returned error, a Rust
panic (from `panic!`/`unimplemented!`), or exhaustion of the fuel that
models the source's unbounded recursion. -/
inductive Failure where
  | err (e : CodecError)
  | panicked (msg : String)
  | fuelExhausted
deriving DecidableEq

abbrev ExecResult (α : Type) := Except Failure α

/-- A field of a composite type (`scale_info::Field`). -/
structure CField where
  name : Option String
  ty : Nat
deriving DecidableEq

/-- `scale_info::TypeDefArray`: fixed length and element type id. -/
structure TypeDefArray where
  len : Nat
  type_param : Nat
deriving DecidableEq

/-- `scale_info::TypeDefComposite`. -/
structure TypeDefComposite where
  fields : List CField
deriving DecidableEq

/-- `scale_info::TypeDef` (compact form): the structural shape of a
registry type. -/
inductive TypeDef where
  | composite (c : TypeDefComposite)
  | variant (variants : List (String × List CField))
  | sequence (type_param : Nat)
  | array (a : TypeDefArray)
  | tuple (fields : List Nat)
  | primitive (p : TypeDefPrimitive)
deriving DecidableEq

/-- A registry entry (`scale_info::Type`), of which the codec only
inspects the type definition. -/
structure CType where
  type_def : TypeDef
deriving DecidableEq

/-- `RegistryReadOnly`: mapping from type id to type. -/
abbrev CRegistry := List (Nat × CType)

/-- `resolve_type`: look the id up in the registry, failing with the
"Failed to resolve type" error when absent. -/
def resolve_type (registry : CRegistry) (id : Nat) : ExecResult CType :=
  match registry.find? (fun e => e.1 == id) with
  | some e => .ok e.2
  | none => .error (.err (.unknownType id))

/-- SCALE encoding of an unsigned integer parsed from text. -/
def encodeUnsigned (bits : Nat) (arg : String) : ExecResult (List Nat) :=
  match uintFromStr bits arg with
  | some v => .ok (toLEBytes (bits / 8) v)
  | none => .error (.err .parseError)

/-- SCALE encoding of a signed integer parsed from text
(two's complement, little endian). -/
def encodeSigned (bits : Nat) (arg : String) : ExecResult (List Nat) :=
  match intFromStr bits arg with
  | some v => .ok (toLEBytes (bits / 8) (Int.toNat (v % (2 ^ bits : Int))))
  | none => .error (.err .parseError)

/-- `EncodeContractArg for TypeDefPrimitive::encode_arg`. -/
def TypeDefPrimitive.encode_arg (p : TypeDefPrimitive) (arg : String) :
    ExecResult (List Nat) :=
  match p with
  | .bool =>
    match boolFromStr arg with
    | some b => .ok [if b then 1 else 0]
    | none => .error (.err .parseError)
  | .char => .error (.panicked "scale codec not implemented for char")
  | .str => .ok (compactEncodeNat (utf8Bytes arg).length ++ utf8Bytes arg)
  | .u8 => encodeUnsigned 8 arg
  | .u16 => encodeUnsigned 16 arg
  | .u32 => encodeUnsigned 32 arg
  | .u64 => encodeUnsigned 64 arg
  | .u128 => encodeUnsigned 128 arg
  | .i8 => encodeSigned 8 arg
  | .i16 => encodeSigned 16 arg
  | .i32 => encodeSigned 32 arg
  | .i64 => encodeSigned 64 arg
  | .i128 => encodeSigned 128 arg

/-- `EncodeContractArg for TypeDef::encode_arg`, with an explicit fuel
bound on the composite-delegation recursion of the source (the fuel is
decremented once per call, so any fuel at least the wrapper depth plus
one yields the source's behaviour). -/
def TypeDef.encode_arg : Nat → CRegistry → TypeDef → String →
    ExecResult (List Nat)
  | 0, _, _, _ => .error .fuelExhausted
  | fuel + 1, registry, td, arg =>
    match td with
    | .array a => do
      let ty ← resolve_type registry a.type_param
      match ty.type_def with
      | .primitive .u8 =>
        match hexDecodeChars arg.toList with
        | some bytes => .ok bytes
        | none => .error (.err .parseError)
      | _ => .error (.err .onlyByteArrays)
    | .primitive p => TypeDefPrimitive.encode_arg p arg
    | .composite c =>
      if c.fields.length ≠ 1 then
        .error (.panicked "Only single field structs currently supported")
      else
        match c.fields.head? with
        | none => .error (.panicked "Only single field structs currently supported")
        | some field =>
          match field.name with
          | some _ => .error (.panicked "Only tuple structs currently supported")
          | none => do
            let ty ← resolve_type registry field.ty
            TypeDef.encode_arg fuel registry ty.type_def arg
    | _ => .error (.panicked "not implemented")

/-- `DecodeToString for TypeDefPrimitive::decode_to_string`: only the
boolean is implemented; every other primitive hits `unimplemented!`. -/
def TypeDefPrimitive.decode_to_string (p : TypeDefPrimitive)
    (input : List Nat) : ExecResult String :=
  match p with
  | .bool =>
    match input with
    | [] => .error (.err .endOfInput)
    | b :: _ =>
      if b = 0 then .ok "false"
      else if b = 1 then .ok "true"
      else .error (.err .invalidBool)
  | _ => .error (.panicked "not implemented")

/-- `DecodeToString for TypeDef::decode_to_string`: dispatch to the
primitive decoder; every other shape hits `unimplemented!`. -/
def TypeDef.decode_to_string (_registry : CRegistry) (td : TypeDef)
    (input : List Nat) : ExecResult String :=
  match td with
  | .primitive p => TypeDefPrimitive.decode_to_string p input
  | _ => .error (.panicked "not implemented")

/-- `ink_metadata::Selector`: the fixed four selector bytes. -/
structure Selector where
  b0 : Nat
  b1 : Nat
  b2 : Nat
  b3 : Nat
deriving DecidableEq

/-- `Selector::to_bytes`. -/
def Selector.to_bytes (s : Selector) : List Nat := [s.b0, s.b1, s.b2, s.b3]

/-- `MessageParamSpec`: argument name and type id. -/
structure MessageParamSpec where
  name : String
  ty : Nat
deriving DecidableEq

/-- `MessageSpec`: namespaced name, selector, ordered arguments, the
mutates flag and an optional return type id. -/
structure MessageSpec where
  name : List String
  selector : Selector
  args : List MessageParamSpec
  mutates : Bool
  return_type : Option Nat
deriving DecidableEq

/-- `ConstructorSpec`: namespaced name, selector and ordered arguments. -/
structure ConstructorSpec where
  name : List String
  selector : Selector
  args : List MessageParamSpec
deriving DecidableEq

/-- An event argument spec: name and type id. -/
structure EventParamSpec where
  name : String
  ty : Nat
deriving DecidableEq

/-- `EventSpec`: event name and ordered arguments. -/
structure EventSpec where
  name : String
  args : List EventParamSpec
deriving DecidableEq

/-- The `Codec` over the parsed ink metadata: constructor, message and
event specs plus the portable type registry. -/
structure Codec where
  constructors : List ConstructorSpec
  messages : List MessageSpec
  events : List EventSpec
  registry : CRegistry

/-- The per-argument step of `Codec::encode`: resolve the spec's type id
and encode the textual argument at that type. -/
def encode_args_list (fuel : Nat) (registry : CRegistry) :
    List (MessageParamSpec × String) → ExecResult (List (List Nat))
  | [] => .ok []
  | (spec, arg) :: rest => do
    let ty ← resolve_type registry spec.ty
    let enc ← TypeDef.encode_arg fuel registry ty.type_def arg
    let encs ← encode_args_list fuel registry rest
    .ok (enc :: encs)

/-- `Codec::encode`: zip the declared parameters with the supplied
textual arguments, encode each pair left to right, concatenate, and
prepend the selector bytes. -/
def Codec.encode (c : Codec) (fuel : Nat) (spec_selector : Selector)
    (spec_args : List MessageParamSpec) (args : List String) :
    ExecResult (List Nat) := do
  let parts ← encode_args_list fuel c.registry (spec_args.zip args)
  .ok (spec_selector.to_bytes ++ parts.flatten)

/-- `Codec::find_message_spec`: first message whose name list contains
the requested name, else the not-found error listing the candidates. -/
def Codec.find_message_spec (c : Codec) (name : String) :
    ExecResult MessageSpec :=
  match c.messages.find? (fun m => m.name.contains name) with
  | some m => .ok m
  | none => .error (.err (.messageNotFound name (c.messages.map (fun m => m.name))))

/-- `Codec::encode_message`. -/
def Codec.encode_message (c : Codec) (fuel : Nat) (name : String)
    (args : List String) : ExecResult (List Nat) := do
  let msg_spec ← c.find_message_spec name
  c.encode fuel msg_spec.selector msg_spec.args args

/-- `Codec::encode_constructor`. -/
def Codec.encode_constructor (c : Codec) (fuel : Nat) (name : String)
    (args : List String) : ExecResult (List Nat) :=
  match c.constructors.find? (fun m => m.name.contains name) with
  | some ctor => c.encode fuel ctor.selector ctor.args args
  | none => .error (.err (.messageNotFound name (c.constructors.map (fun m => m.name))))

/-- `Codec::decode_return`: look the message up; with a return type,
resolve it and decode the bytes to a string; with no return type,
produce the empty string. -/
def Codec.decode_return (c : Codec) (name : String) (data : List Nat) :
    ExecResult String := do
  let msg_spec ← c.find_message_spec name
  match msg_spec.return_type with
  | some return_ty => do
    let ty ← resolve_type c.registry return_ty
    TypeDef.decode_to_string c.registry ty.type_def data
  | none => .ok ""

/-- The decoded form of an emitted event argument. -/
structure DecodedEventArg where
  name : String
  value : String
deriving DecidableEq

/-- The decoded form of an emitted event. -/
structure DecodedEvent where
  name : String
  args : List DecodedEventArg
deriving DecidableEq

/-- `Codec::decode_events`: read the leading discriminant byte, select
the event spec positionally, and build the decoded event with the
placeholder value for every argument. Returns the decoded event together
with the bytes remaining in the cursor. -/
def Codec.decode_events (c : Codec) (data : List Nat) :
    ExecResult (DecodedEvent × List Nat) :=
  match data with
  | [] => .error (.err .endOfInput)
  | variant_index :: rest =>
    match c.events.get? variant_index with
    | none => .error (.err (.unknownEventVariant variant_index))
    | some event_spec =>
      .ok ({ name := event_spec.name,
             args := event_spec.args.map
               (fun arg => { name := arg.name, value := "TODO" }) }, rest)

end Extrinsics

namespace Transcode

/-- `scale_info::TypeParameter` (portable form): name and optional
concrete type id. -/
structure PTypeParam where
  name : String
  ty : Option Nat
deriving DecidableEq

/-- `scale_info::Field` (portable form). -/
structure PField where
  name : Option String
  ty : Nat
deriving DecidableEq

/-- `scale_info::TypeDef` (portable form). -/
inductive PTypeDef where
  | composite (fields : List PField)
  | variant (variants : List (String × List PField))
  | sequence (elem : Nat)
  | array (len : Nat) (type_param : Nat)
  | tuple (elems : List Nat)
  | primitive (p : TypeDefPrimitive)
  | compact (elem : Nat)
  | bitSequence
deriving DecidableEq

/-- `scale_info::Type` (portable form): path segments, type parameters
and the structural definition. -/
structure PType where
  path : List String
  type_params : List PTypeParam
  type_def : PTypeDef
deriving DecidableEq

/-- `scale_info::PortableRegistry`: types indexed by their id. -/
structure PortableRegistry where
  types : List PType
deriving DecidableEq

/-- `PortableRegistry::resolve`. -/
def PortableRegistry.resolve (reg : PortableRegistry) (id : Nat) :
    Option PType :=
  reg.types.get? id

/-- An `anyhow` error message from the resolution helpers, or the fuel
exhaustion that models the source's unbounded recursion. -/
inductive ResolveErr where
  | outOfFuel
  | msg (s : String)
deriving DecidableEq

/-- `resolve_type_definition`: resolve the id; a type with type
parameters recurses into the first parameter's concrete type; a
parameterless composite must have exactly one field (of any name) and
recurses into it; anything else is returned as resolved. The fuel
parameter makes the source's unbounded recursion explicit. -/
def resolve_type_definition (registry : PortableRegistry) :
    Nat → Nat → Except ResolveErr PTypeDef
  | 0, _ => .error .outOfFuel
  | fuel + 1, id =>
    match registry.resolve id with
    | none => .error (.msg "Type is not present in registry")
    | some tt =>
      if tt.type_params.isEmpty then
        match tt.type_def with
        | .composite fields =>
          if fields.length > 1 ∨ fields.length = 0 then
            .error (.msg "Composite field has incorrect composite type format")
          else
            match fields.head? with
            | none => .error (.msg "Incorrect format of a field")
            | some f => resolve_type_definition registry fuel f.ty
        | td => .ok td
      else
        match tt.type_params.head? with
        | none => .error (.msg "type param is not present")
        | some p =>
          match p.ty with
          | none => .error (.msg "concrete type is not present")
          | some pid => resolve_type_definition registry fuel pid

/-- `get_node_env_fields`: find the `pallet_contracts::Environment`
composite in the node registry and return its fields. -/
def get_node_env_fields (registry : PortableRegistry) :
    Except ResolveErr (List PField) :=
  match registry.types.find?
      (fun t => t.path == ["pallet_contracts", "Environment"]) with
  | none => .error (.msg "The node does not contain `Environment` type")
  | some env_type =>
    match env_type.type_def with
    | .composite fields => .ok fields
    | _ => .error (.msg "`Environment` type definition is in the wrong format")

/-- The contract metadata's declared environment type ids. -/
structure EnvironmentSpec where
  account_id : Nat
  balance : Nat
  hash : Nat
  timestamp : Nat
  block_number : Nat
deriving DecidableEq

/-- The slice of `ink_metadata::InkProject` used by the environment
check: the environment type ids and the contract's own registry. -/
structure InkProject where
  environment : EnvironmentSpec
  registry : PortableRegistry
deriving DecidableEq

/-- `EnvCheckError`: a failed comparison naming the field, or a registry
error carrying the underlying `anyhow` message (the source's
`From<anyhow::Error>` conversion), or fuel exhaustion. -/
inductive EnvCheckError where
  | checkFailed (s : String)
  | registryError (s : String)
  | outOfFuel
deriving DecidableEq

/-- Conversion of a resolution error at the check boundary. -/
def liftResolveErr : ResolveErr → EnvCheckError
  | .outOfFuel => .outOfFuel
  | .msg s => .registryError s

/-- The contract-side environment type id for a field name
(the `match type_name` of `compare_type`). -/
def environment_type_id (contract_metadata : InkProject)
    (type_name : String) : Except ResolveErr Nat :=
  if type_name = "account_id" then .ok contract_metadata.environment.account_id
  else if type_name = "balance" then .ok contract_metadata.environment.balance
  else if type_name = "hash" then .ok contract_metadata.environment.hash
  else if type_name = "timestamp" then .ok contract_metadata.environment.timestamp
  else if type_name = "block_number" then .ok contract_metadata.environment.block_number
  else .error (.msg "Trying to resolve unknown environment type")

/-- `compare_type`: resolve the contract's type for the field; when the
node type is a fixed array, resolve the node element type, then, when
the contract type is also a fixed array, require equal lengths (an
unequal length is an `anyhow` error, not a named check failure) and
compare the resolved element definitions for equality; in every other
case compare the two resolved definitions for deep equality. -/
def compare_type (fuel : Nat) (type_name : String) (type_def : PTypeDef)
    (contract_metadata : InkProject) (node_registry : PortableRegistry) :
    Except ResolveErr Bool := do
  let tt_id ← environment_type_id contract_metadata type_name
  let tt_def ← resolve_type_definition contract_metadata.registry fuel tt_id
  match type_def with
  | .array node_len node_tp => do
    let node_arr_type ← resolve_type_definition node_registry fuel node_tp
    match tt_def with
    | .array contract_len contract_tp =>
      if node_len ≠ contract_len then
        .error (.msg "Mismatch in array lengths")
      else do
        let contract_arr_type ←
          resolve_type_definition contract_metadata.registry fuel contract_tp
        .ok (decide (contract_arr_type = node_arr_type))
    | _ => .ok (decide (PTypeDef.array node_len node_tp = tt_def))
  | _ => .ok (decide (type_def = tt_def))

/-- The field loop of `compare_node_env_with_contract`: skip the hasher
field, resolve and compare each remaining field, short-circuiting with
`checkFailed` naming the field on the first comparison that is false. -/
def env_check_fields (node_registry : PortableRegistry)
    (contract_metadata : InkProject) (fuel : Nat) :
    List PField → Except EnvCheckError Unit
  | [] => .ok ()
  | field :: rest =>
    match field.name with
    | none => .error (.registryError "Field does not have a name")
    | some field_name =>
      if field_name = "hasher" then
        env_check_fields node_registry contract_metadata fuel rest
      else
        match resolve_type_definition node_registry fuel field.ty with
        | .error e => .error (liftResolveErr e)
        | .ok field_def =>
          match compare_type fuel field_name field_def contract_metadata
              node_registry with
          | .error e => .error (liftResolveErr e)
          | .ok checked =>
            if checked then
              env_check_fields node_registry contract_metadata fuel rest
            else .error (.checkFailed field_name)

/-- `compare_node_env_with_contract`: fetch the node's environment
fields and run the comparison loop. -/
def compare_node_env_with_contract (node_registry : PortableRegistry)
    (contract_metadata : InkProject) (fuel : Nat) :
    Except EnvCheckError Unit :=
  match get_node_env_fields node_registry with
  | .error e => .error (liftResolveErr e)
  | .ok env_fields =>
    env_check_fields node_registry contract_metadata fuel env_fields

end Transcode

namespace Extrinsics

/-- Example registry: u8 at id 0, bool at id 1, u32 at id 2. -/
def exRegistry : CRegistry :=
  [(0, ⟨.primitive .u8⟩), (1, ⟨.primitive .bool⟩), (2, ⟨.primitive .u32⟩)]

/-- Example message with two u8 arguments and no return type. -/
def exMessageGet : MessageSpec :=
  { name := ["get"], selector := ⟨1, 2, 3, 4⟩,
    args := [⟨"a", 0⟩, ⟨"b", 0⟩], mutates := false, return_type := none }

/-- Example message with no arguments and a bool return type. -/
def exMessageFlip : MessageSpec :=
  { name := ["flip"], selector := ⟨5, 6, 7, 8⟩, args := [],
    mutates := true, return_type := some 1 }

/-- Example codec over the two messages and one declared event. -/
def exCodec : Codec :=
  { constructors := [], messages := [exMessageGet, exMessageFlip],
    events := [⟨"Transferred", [⟨"value", 2⟩]⟩], registry := exRegistry }

end Extrinsics

namespace Transcode

/-- Node-side registry whose environment declares one account_id field
resolving to a 32-byte array. -/
def exNodeReg : PortableRegistry :=
  ⟨[⟨["pallet_contracts", "Environment"], [], .composite [⟨some "account_id", 1⟩]⟩,
    ⟨[], [], .array 32 2⟩,
    ⟨[], [], .primitive .u8⟩]⟩

/-- Contract metadata whose account_id resolves to a 20-byte array. -/
def exContract : InkProject :=
  ⟨⟨0, 0, 0, 0, 0⟩, ⟨[⟨[], [], .array 20 1⟩, ⟨[], [], .primitive .u8⟩]⟩⟩

/-- Node-side registry whose account_id field resolves to u32. -/
def exNodeReg2 : PortableRegistry :=
  ⟨[⟨["pallet_contracts", "Environment"], [], .composite [⟨some "account_id", 1⟩]⟩,
    ⟨[], [], .primitive .u32⟩]⟩

/-- Contract metadata whose account_id resolves to u64. -/
def exContract2 : InkProject :=
  ⟨⟨0, 0, 0, 0, 0⟩, ⟨[⟨[], [], .primitive .u64⟩]⟩⟩

/-- Registry whose id 0 is a single-field composite with a named field
wrapping the u32 at id 1. -/
def exWrapReg : PortableRegistry :=
  ⟨[⟨[], [], .composite [⟨some "inner", 1⟩]⟩, ⟨[], [], .primitive .u32⟩]⟩

/-- Registry whose sole type is a generic with an erased (absent)
concrete type parameter. -/
def exErasedReg : PortableRegistry :=
  ⟨[⟨[], [⟨"T", none⟩], .composite []⟩]⟩

/-- Registry with a cyclic wrapper: id 0 is a single-field composite
whose field refers back to id 0. -/
def cycReg : PortableRegistry := ⟨[⟨[], [], .composite [⟨none, 0⟩]⟩]⟩

/-- The resolver never produces a result on this id, for any iteration
bound: the model of a nonterminating recursion in the source. -/
def resolver_diverges (reg : PortableRegistry) (id : Nat) : Prop :=
  ∀ n, resolve_type_definition reg n id = .error .outOfFuel

/-- A node environment field that the check loop lets pass: either the
skipped hasher field, or a named field whose resolution succeeds and
whose comparison against the contract returns true. -/
def field_passes (node_registry : PortableRegistry)
    (contract_metadata : InkProject) (fuel : Nat) (field : PField) : Prop :=
  field.name = some "hasher" ∨
  ∃ nm fd, field.name = some nm ∧ nm ≠ "hasher" ∧
    resolve_type_definition node_registry fuel field.ty = .ok fd ∧
    compare_type fuel nm fd contract_metadata node_registry = .ok true

end Transcode
open Extrinsics Transcode in
/-- Helper: a successful boolean decode is determined by the head byte and
is preserved when bytes are appended. -/
theorem decode_to_string_append (registry : Extrinsics.CRegistry)
    (td : Extrinsics.TypeDef) (data extra : List Nat) (r : String)
    (h : Extrinsics.TypeDef.decode_to_string registry td data = .ok r) :
    Extrinsics.TypeDef.decode_to_string registry td (data ++ extra) = .ok r := by
  cases td with
  | primitive p =>
    cases p with
    | bool =>
      cases data with
      | nil =>
        simp [Extrinsics.TypeDef.decode_to_string,
          Extrinsics.TypeDefPrimitive.decode_to_string] at h
      | cons b rest =>
        simp only [Extrinsics.TypeDef.decode_to_string,
          Extrinsics.TypeDefPrimitive.decode_to_string, List.cons_append] at h ⊢
        by_cases hb0 : b = 0
        · simpa [hb0] using h
        · by_cases hb1 : b = 1
          · simpa [hb0, hb1] using h
          · simp [hb0, hb1] at h
    | char =>
      simp [Extrinsics.TypeDef.decode_to_string,
        Extrinsics.TypeDefPrimitive.decode_to_string] at h
    | str =>
      simp [Extrinsics.TypeDef.decode_to_string,
        Extrinsics.TypeDefPrimitive.decode_to_string] at h
    | u8 =>
      simp [Extrinsics.TypeDef.decode_to_string,
        Extrinsics.TypeDefPrimitive.decode_to_string] at h
    | u16 =>
      simp [Extrinsics.TypeDef.decode_to_string,
        Extrinsics.TypeDefPrimitive.decode_to_string] at h
    | u32 =>
      simp [Extrinsics.TypeDef.decode_to_string,
        Extrinsics.TypeDefPrimitive.decode_to_string] at h
    | u64 =>
      simp [Extrinsics.TypeDef.decode_to_string,
        Extrinsics.TypeDefPrimitive.decode_to_string] at h
    | u128 =>
      simp [Extrinsics.TypeDef.decode_to_string,
        Extrinsics.TypeDefPrimitive.decode_to_string] at h
    | i8 =>
      simp [Extrinsics.TypeDef.decode_to_string,
        Extrinsics.TypeDefPrimitive.decode_to_string] at h
    | i16 =>
      simp [Extrinsics.TypeDef.decode_to_string,
        Extrinsics.TypeDefPrimitive.decode_to_string] at h
    | i32 =>
      simp [Extrinsics.TypeDef.decode_to_string,
        Extrinsics.TypeDefPrimitive.decode_to_string] at h
    | i64 =>
      simp [Extrinsics.TypeDef.decode_to_string,
        Extrinsics.TypeDefPrimitive.decode_to_string] at h
    | i128 =>
      simp [Extrinsics.TypeDef.decode_to_string,
        Extrinsics.TypeDefPrimitive.decode_to_string] at h
  | composite c => simp [Extrinsics.TypeDef.decode_to_string] at h
  | variant v => simp [Extrinsics.TypeDef.decode_to_string] at h
  | sequence s => simp [Extrinsics.TypeDef.decode_to_string] at h
  | array a => simp [Extrinsics.TypeDef.decode_to_string] at h
  | tuple t => simp [Extrinsics.TypeDef.decode_to_string] at h
/-- C1 counterexample: encoding "42" at the u32 primitive succeeds and
produces the four little-endian bytes, but decoding those bytes at u32
hits the unimplemented decoder, so the round trip fails for u32. -/
theorem u32_roundtrip_decode_unimplemented :
    Extrinsics.TypeDef.encode_arg 1 Extrinsics.exRegistry (.primitive .u32) "42" =
      .ok [42, 0, 0, 0] ∧
    Extrinsics.TypeDef.decode_to_string Extrinsics.exRegistry (.primitive .u32)
      [42, 0, 0, 0] = .error (.panicked "not implemented") :=
  ⟨rfl, rfl⟩

/-- C1 (amended): the round trip decode(T, encode(T, v)) = v holds exactly
for the boolean primitive, the only primitive whose decoder is
implemented; decoding any other primitive panics via unimplemented. -/
theorem bool_roundtrip_only :
    (∀ (fuel : Nat) (registry : Extrinsics.CRegistry) (s : String) (bytes : List Nat),
      Extrinsics.TypeDef.encode_arg (fuel + 1) registry (.primitive .bool) s = .ok bytes →
      Extrinsics.TypeDef.decode_to_string registry (.primitive .bool) bytes = .ok s) ∧
    (∀ (registry : Extrinsics.CRegistry) (p : TypeDefPrimitive) (input : List Nat),
      p ≠ .bool →
      Extrinsics.TypeDef.decode_to_string registry (.primitive p) input =
        .error (.panicked "not implemented")) := by
  constructor
  · intro fuel registry s bytes h
    simp only [Extrinsics.TypeDef.encode_arg,
      Extrinsics.TypeDefPrimitive.encode_arg, boolFromStr] at h
    by_cases h1 : s = "true"
    · subst h1
      simp only [if_pos rfl] at h
      cases h
      rfl
    · by_cases h2 : s = "false"
      · subst h2
        simp only [if_neg h1, if_pos rfl] at h
        cases h
        rfl
      · simp [h1, h2] at h
  · intro registry p input hp
    cases p with
    | bool => exact absurd rfl hp
    | char => rfl
    | str => rfl
    | u8 => rfl
    | u16 => rfl
    | u32 => rfl
    | u64 => rfl
    | u128 => rfl
    | i8 => rfl
    | i16 => rfl
    | i32 => rfl
    | i64 => rfl
    | i128 => rfl

/-- C1 witness: the amended round trip at the concrete value "true". -/
theorem bool_roundtrip_only_witness :
    Extrinsics.TypeDef.encode_arg 1 Extrinsics.exRegistry (.primitive .bool) "true" =
      .ok [1] ∧
    Extrinsics.TypeDef.decode_to_string Extrinsics.exRegistry (.primitive .bool) [1] =
      .ok "true" :=
  ⟨rfl, bool_roundtrip_only.1 0 Extrinsics.exRegistry "true" [1] rfl⟩
/-- Bind of a success, for `Except`. -/
@[simp] theorem except_bind_ok {ε α β : Type} (a : α) (f : α → Except ε β) :
    (Except.ok a : Except ε α) >>= f = f a := rfl

/-- Bind of a failure, for `Except`. -/
@[simp] theorem except_bind_error {ε α β : Type} (e : ε) (f : α → Except ε β) :
    (Except.error e : Except ε α) >>= f = Except.error e := rfl

/-- Helper: zipping ignores the elements of the first list beyond the
length of the second. -/
theorem zip_take_len {α β : Type} :
    ∀ (l1 : List α) (l2 : List β), l1.zip l2 = (l1.take l2.length).zip l2
  | [], _ => by simp
  | _ :: _, [] => by simp
  | a :: l1, b :: l2 => by
    simp [List.zip_cons_cons, List.length_cons, List.take_succ_cons,
      zip_take_len l1 l2]

/-- C3 counterexample: the message "get" declares two arguments, yet
encoding with a single textual argument succeeds, silently dropping the
second declared argument instead of failing with an arity error. -/
theorem missing_arg_silently_dropped :
    Extrinsics.exMessageGet.args.length = 2 ∧
    Extrinsics.Codec.find_message_spec Extrinsics.exCodec "get" =
      .ok Extrinsics.exMessageGet ∧
    Extrinsics.Codec.encode_message Extrinsics.exCodec 5 "get" ["5"] =
      .ok [1, 2, 3, 4, 5] :=
  ⟨rfl, rfl, rfl⟩

/-- C3 (amended): encoding with fewer textual arguments than declared
parameters silently drops the excess declared parameters — `encode`
behaves exactly as if the declared parameter list were truncated to the
number of supplied arguments, and with no supplied arguments the output
is just the selector bytes; no arity error exists. -/
theorem encode_drops_missing_trailing_args :
    (∀ (c : Extrinsics.Codec) (fuel : Nat) (sel : Extrinsics.Selector)
       (spec_args : List Extrinsics.MessageParamSpec) (args : List String),
       c.encode fuel sel spec_args args =
         c.encode fuel sel (spec_args.take args.length) args) ∧
    (∀ (c : Extrinsics.Codec) (fuel : Nat) (sel : Extrinsics.Selector)
       (spec_args : List Extrinsics.MessageParamSpec),
       c.encode fuel sel spec_args [] = .ok sel.to_bytes) := by
  constructor
  · intro c fuel sel spec_args args
    unfold Extrinsics.Codec.encode
    rw [← zip_take_len]
  · intro c fuel sel spec_args
    unfold Extrinsics.Codec.encode
    rw [List.zip_nil_right]
    simp [Extrinsics.encode_args_list]

/-- C4 counterexample: the message "flip" returns a boolean; decoding
the exact one-byte payload succeeds, and decoding the same payload with
one extra trailing byte also succeeds with the same value instead of
failing on trailing bytes. -/
theorem trailing_byte_ignored :
    Extrinsics.Codec.decode_return Extrinsics.exCodec "flip" [1] = .ok "true" ∧
    Extrinsics.Codec.decode_return Extrinsics.exCodec "flip" [1, 0] = .ok "true" :=
  ⟨rfl, rfl⟩

/-- C4 (amended): `decode_return` decodes a prefix of the input and
ignores trailing bytes — a successful decode is preserved, with the same
value, by appending arbitrary extra bytes; a message with no return type
yields the empty string. -/
theorem decode_return_ignores_trailing_bytes :
    (∀ (c : Extrinsics.Codec) (name : String) (data extra : List Nat) (r : String),
       c.decode_return name data = .ok r →
       c.decode_return name (data ++ extra) = .ok r) ∧
    (∀ (c : Extrinsics.Codec) (name : String) (spec : Extrinsics.MessageSpec)
       (data : List Nat),
       c.find_message_spec name = .ok spec → spec.return_type = none →
       c.decode_return name data = .ok "") := by
  constructor
  · intro c name data extra r h
    unfold Extrinsics.Codec.decode_return at h ⊢
    cases hf : c.find_message_spec name with
    | error e =>
      rw [hf] at h
      simp at h
    | ok spec =>
      rw [hf] at h
      simp only [except_bind_ok] at h ⊢
      cases hrt : spec.return_type with
      | none => rw [hrt] at h; exact h
      | some rt =>
        rw [hrt] at h
        cases hres : Extrinsics.resolve_type c.registry rt with
        | error e =>
          simp only [hres, except_bind_error] at h
          exact Except.noConfusion h
        | ok ty =>
          simp only [hres, except_bind_ok] at h ⊢
          exact decode_to_string_append c.registry ty.type_def data extra r h
  · intro c name spec data hf hrt
    unfold Extrinsics.Codec.decode_return
    rw [hf]
    simp only [except_bind_ok]
    rw [hrt]

/-- C4 witness: the amended claim at concrete inputs — appending a byte
to a successful boolean decode, and a message with no return type. -/
theorem decode_return_ignores_trailing_bytes_witness :
    Extrinsics.Codec.decode_return Extrinsics.exCodec "flip" ([1] ++ [7]) = .ok "true" ∧
    Extrinsics.Codec.decode_return Extrinsics.exCodec "get" [9, 9] = .ok "" :=
  ⟨decode_return_ignores_trailing_bytes.1 Extrinsics.exCodec "flip" [1] [7] "true" rfl,
   decode_return_ignores_trailing_bytes.2 Extrinsics.exCodec "get"
     Extrinsics.exMessageGet [9, 9] rfl rfl⟩
/-- C5: a successful `encode_message` output is exactly the four
selector bytes recorded for the found message, followed by the
concatenated argument encodings; in particular its first four bytes are
the selector. -/
theorem encode_message_selector_first :
    ∀ (c : Extrinsics.Codec) (fuel : Nat) (name : String) (args : List String)
      (spec : Extrinsics.MessageSpec) (out : List Nat),
      c.find_message_spec name = .ok spec →
      c.encode_message fuel name args = .ok out →
      ∃ parts,
        Extrinsics.encode_args_list fuel c.registry (spec.args.zip args) = .ok parts ∧
        out = spec.selector.to_bytes ++ parts.flatten ∧
        out.take 4 = spec.selector.to_bytes := by
  intro c fuel name args spec out hf h
  unfold Extrinsics.Codec.encode_message at h
  rw [hf] at h
  simp only [except_bind_ok] at h
  unfold Extrinsics.Codec.encode at h
  cases hargs : Extrinsics.encode_args_list fuel c.registry (spec.args.zip args) with
  | error e =>
    rw [hargs] at h
    exact Except.noConfusion h
  | ok parts =>
    rw [hargs] at h
    simp only [except_bind_ok] at h
    cases h
    exact ⟨parts, rfl, rfl, rfl⟩

/-- C5 witness: the selector-prefix property at a concrete codec and
argument list. -/
theorem encode_message_selector_first_witness :
    ∃ parts,
      Extrinsics.encode_args_list 5 Extrinsics.exCodec.registry
        (Extrinsics.exMessageGet.args.zip ["7", "9"]) = .ok parts ∧
      [1, 2, 3, 4, 7, 9] = Extrinsics.exMessageGet.selector.to_bytes ++ parts.flatten ∧
      List.take 4 [1, 2, 3, 4, 7, 9] = Extrinsics.exMessageGet.selector.to_bytes :=
  encode_message_selector_first Extrinsics.exCodec 5 "get" ["7", "9"]
    Extrinsics.exMessageGet [1, 2, 3, 4, 7, 9] rfl rfl

/-- C6: `decode_events` selects the event spec positionally by the
leading discriminant byte — a discriminant at least the number of
declared events fails naming that index, and discriminant zero selects
the first declared event. -/
theorem decode_events_positional :
    ∀ (c : Extrinsics.Codec) (b : Nat) (rest : List Nat),
      (c.events.length ≤ b →
        c.decode_events (b :: rest) =
          .error (.err (.unknownEventVariant b))) ∧
      (∀ e es, c.events = e :: es →
        c.decode_events (0 :: rest) =
          .ok ({ name := e.name,
                 args := e.args.map (fun a => ⟨a.name, "TODO"⟩) }, rest)) := by
  intro c b rest
  constructor
  · intro hlen
    simp only [Extrinsics.Codec.decode_events, List.get?_eq_none.mpr hlen]
  · intro e es he
    simp only [Extrinsics.Codec.decode_events, he, List.get?_cons_zero]

/-- C6 witness: with one declared event, discriminant one fails with the
unknown-variant error carrying index one, and discriminant zero selects
the first declared event. -/
theorem decode_events_positional_witness :
    Extrinsics.Codec.decode_events Extrinsics.exCodec [1, 42] =
      .error (.err (.unknownEventVariant 1)) ∧
    Extrinsics.Codec.decode_events Extrinsics.exCodec [0, 42] =
      .ok ({ name := "Transferred", args := [⟨"value", "TODO"⟩] }, [42]) :=
  ⟨(decode_events_positional Extrinsics.exCodec 1 [42]).1 (by decide),
   (decode_events_positional Extrinsics.exCodec 0 [42]).2
     ⟨"Transferred", [⟨"value", 2⟩]⟩ [] rfl⟩

/-- C10: a successful `decode_events` consumes exactly the one leading
discriminant byte — the returned cursor is the input tail — and every
returned field carries the placeholder value "TODO"; an empty input
fails reading the discriminant. -/
theorem decode_events_one_byte_todo :
    (∀ (c : Extrinsics.Codec) (b : Nat) (rest : List Nat)
       (r : Extrinsics.DecodedEvent × List Nat),
       c.decode_events (b :: rest) = .ok r →
       r.2 = rest ∧ ∀ a ∈ r.1.args, a.value = "TODO") ∧
    (∀ c : Extrinsics.Codec,
       c.decode_events [] = .error (.err .endOfInput)) := by
  constructor
  · intro c b rest r h
    simp only [Extrinsics.Codec.decode_events] at h
    cases hev : c.events.get? b with
    | none =>
      rw [hev] at h
      exact Except.noConfusion h
    | some ev =>
      rw [hev] at h
      cases h
      refine ⟨rfl, ?_⟩
      intro a ha
      simp only [List.mem_map] at ha
      obtain ⟨x, _, hx⟩ := ha
      rw [← hx]
  · intro c
    rfl

/-- C10 witness: a concrete decode consumes one byte and yields the
placeholder field value. -/
theorem decode_events_one_byte_todo_witness :
    ([42] : List Nat) = [42] ∧
    (∀ a ∈ ({ name := "Transferred",
              args := [⟨"value", "TODO"⟩] } : Extrinsics.DecodedEvent).args,
      a.value = "TODO") :=
  (decode_events_one_byte_todo.1 Extrinsics.exCodec 0 [42]
    ({ name := "Transferred", args := [⟨"value", "TODO"⟩] }, [42]) rfl)
/-- C8 counterexample: encoding an argument at a two-field composite
panics with the single-field-structs message, and a single-field
composite with a named field panics with the tuple-structs message —
neither returns an error value to the caller. -/
theorem multi_field_composite_panics :
    Extrinsics.TypeDef.encode_arg 5 Extrinsics.exRegistry
      (.composite ⟨[⟨none, 0⟩, ⟨none, 0⟩]⟩) "7" =
      .error (.panicked "Only single field structs currently supported") ∧
    Extrinsics.TypeDef.encode_arg 5 Extrinsics.exRegistry
      (.composite ⟨[⟨some "x", 0⟩]⟩) "7" =
      .error (.panicked "Only tuple structs currently supported") :=
  ⟨rfl, rfl⟩

/-- C8 (amended): a composite without exactly one field makes the
encoder panic with the single-field-structs message; a single-field
composite with a named field makes it panic with the tuple-structs
message; a single-field unnamed-field composite is encoded by
delegating to the resolved inner type. -/
theorem composite_encode_panics_or_delegates :
    (∀ (fuel : Nat) (registry : Extrinsics.CRegistry)
       (c : Extrinsics.TypeDefComposite) (arg : String),
       c.fields.length ≠ 1 →
       Extrinsics.TypeDef.encode_arg (fuel + 1) registry (.composite c) arg =
         .error (.panicked "Only single field structs currently supported")) ∧
    (∀ (fuel : Nat) (registry : Extrinsics.CRegistry) (f : Extrinsics.CField)
       (nm : String) (arg : String),
       f.name = some nm →
       Extrinsics.TypeDef.encode_arg (fuel + 1) registry (.composite ⟨[f]⟩) arg =
         .error (.panicked "Only tuple structs currently supported")) ∧
    (∀ (fuel : Nat) (registry : Extrinsics.CRegistry) (f : Extrinsics.CField)
       (arg : String) (ty : Extrinsics.CType),
       f.name = none → Extrinsics.resolve_type registry f.ty = .ok ty →
       Extrinsics.TypeDef.encode_arg (fuel + 1) registry (.composite ⟨[f]⟩) arg =
         Extrinsics.TypeDef.encode_arg fuel registry ty.type_def arg) := by
  refine ⟨?_, ?_, ?_⟩
  · intro fuel registry c arg hlen
    simp only [Extrinsics.TypeDef.encode_arg, if_pos hlen]
  · intro fuel registry f nm arg hname
    obtain ⟨fn, fty⟩ := f
    have h2 : fn = some nm := hname
    subst h2
    simp [Extrinsics.TypeDef.encode_arg]
  · intro fuel registry f arg ty hname hres
    obtain ⟨fn, fty⟩ := f
    have h2 : fn = none := hname
    subst h2
    simp [Extrinsics.TypeDef.encode_arg, hres]

/-- C8 witness: the amended behaviour at concrete composites — the
two-field panic, the named-field panic, and delegation for an
unnamed single field. -/
theorem composite_encode_panics_or_delegates_witness :
    Extrinsics.TypeDef.encode_arg 6 Extrinsics.exRegistry
      (.composite ⟨[]⟩) "7" =
      .error (.panicked "Only single field structs currently supported") ∧
    Extrinsics.TypeDef.encode_arg 6 Extrinsics.exRegistry
      (.composite ⟨[⟨some "y", 2⟩]⟩) "7" =
      .error (.panicked "Only tuple structs currently supported") ∧
    Extrinsics.TypeDef.encode_arg 6 Extrinsics.exRegistry
      (.composite ⟨[⟨none, 2⟩]⟩) "7" =
      Extrinsics.TypeDef.encode_arg 5 Extrinsics.exRegistry
        (.primitive .u32) "7" :=
  ⟨composite_encode_panics_or_delegates.1 5 Extrinsics.exRegistry ⟨[]⟩ "7" (by decide),
   composite_encode_panics_or_delegates.2.1 5 Extrinsics.exRegistry ⟨some "y", 2⟩ "y" "7" rfl,
   composite_encode_panics_or_delegates.2.2 5 Extrinsics.exRegistry ⟨none, 2⟩ "7"
     ⟨.primitive .u32⟩ rfl rfl⟩

/-- C7 counterexample: the registry holds at id 0 a single-field
composite whose field is named, and resolution unwraps it to the inner
u32 instead of stopping at the composite. -/
theorem named_wrapper_unwrapped :
    Transcode.PortableRegistry.resolve Transcode.exWrapReg 0 =
      some ⟨[], [], .composite [⟨some "inner", 1⟩]⟩ ∧
    Transcode.resolve_type_definition Transcode.exWrapReg 10 0 =
      .ok (.primitive .u32) :=
  ⟨rfl, rfl⟩

/-- C7 (amended): `resolve_type_definition` never returns a composite; it
transitively unwraps single-field composites regardless of the field's
name; a parameterless composite with zero or several fields fails with
the incorrect-composite-format error; a type with parameters recurses
into its first parameter, failing with the concrete-type-absent error
when that parameter's concrete type is erased. -/
theorem resolve_unwraps_single_field_composites :
    (∀ (reg : Transcode.PortableRegistry) (fuel id : Nat) (td : Transcode.PTypeDef)
       (fs : List Transcode.PField),
       Transcode.resolve_type_definition reg fuel id = .ok td →
       td ≠ .composite fs) ∧
    (∀ (reg : Transcode.PortableRegistry) (fuel id : Nat) (tt : Transcode.PType)
       (f : Transcode.PField),
       reg.resolve id = some tt → tt.type_params = [] →
       tt.type_def = .composite [f] →
       Transcode.resolve_type_definition reg (fuel + 1) id =
         Transcode.resolve_type_definition reg fuel f.ty) ∧
    (∀ (reg : Transcode.PortableRegistry) (fuel id : Nat) (tt : Transcode.PType)
       (fs : List Transcode.PField),
       reg.resolve id = some tt → tt.type_params = [] →
       tt.type_def = .composite fs → fs.length ≠ 1 →
       Transcode.resolve_type_definition reg (fuel + 1) id =
         .error (.msg "Composite field has incorrect composite type format")) ∧
    (∀ (reg : Transcode.PortableRegistry) (fuel id : Nat) (tt : Transcode.PType)
       (p : Transcode.PTypeParam) (ps : List Transcode.PTypeParam),
       reg.resolve id = some tt → tt.type_params = p :: ps → p.ty = none →
       Transcode.resolve_type_definition reg (fuel + 1) id =
         .error (.msg "concrete type is not present")) ∧
    (∀ (reg : Transcode.PortableRegistry) (fuel id : Nat) (tt : Transcode.PType)
       (p : Transcode.PTypeParam) (ps : List Transcode.PTypeParam) (pid : Nat),
       reg.resolve id = some tt → tt.type_params = p :: ps → p.ty = some pid →
       Transcode.resolve_type_definition reg (fuel + 1) id =
         Transcode.resolve_type_definition reg fuel pid) := by
  refine ⟨?_, ?_, ?_, ?_, ?_⟩
  · intro reg fuel
    induction fuel with
    | zero =>
      intro id td fs h
      exact absurd h (by simp [Transcode.resolve_type_definition])
    | succ n ih =>
      intro id td fs h
      simp only [Transcode.resolve_type_definition] at h
      cases hres : reg.resolve id with
      | none => simp only [hres] at h; exact Except.noConfusion h
      | some tt =>
        simp only [hres] at h
        by_cases hp : tt.type_params.isEmpty = true
        · rw [if_pos hp] at h
          cases htd : tt.type_def with
          | composite fields =>
            simp only [htd] at h
            by_cases hlen : fields.length > 1 ∨ fields.length = 0
            · rw [if_pos hlen] at h
              exact Except.noConfusion h
            · rw [if_neg hlen] at h
              cases hhead : fields.head? with
              | none => simp only [hhead] at h; exact Except.noConfusion h
              | some f => simp only [hhead] at h; exact ih _ _ _ h
          | variant v => simp only [htd] at h; cases h; simp
          | sequence s => simp only [htd] at h; cases h; simp
          | array l tp => simp only [htd] at h; cases h; simp
          | tuple ts => simp only [htd] at h; cases h; simp
          | primitive p => simp only [htd] at h; cases h; simp
          | compact e => simp only [htd] at h; cases h; simp
          | bitSequence => simp only [htd] at h; cases h; simp
        · rw [if_neg hp] at h
          cases hhead : tt.type_params.head? with
          | none => simp only [hhead] at h; exact Except.noConfusion h
          | some p =>
            simp only [hhead] at h
            cases hpt : p.ty with
            | none => simp only [hpt] at h; exact Except.noConfusion h
            | some pid => simp only [hpt] at h; exact ih _ _ _ h
  · intro reg fuel id tt f hres hp htd
    simp only [Transcode.resolve_type_definition, hres, hp, htd,
      List.isEmpty_nil, if_true]
    rfl
  · intro reg fuel id tt fs hres hp htd hlen
    have hor : fs.length > 1 ∨ fs.length = 0 := by omega
    simp only [Transcode.resolve_type_definition, hres, hp, htd,
      List.isEmpty_nil, if_true, if_pos hor]
  · intro reg fuel id tt p ps hres hp hpt
    simp [Transcode.resolve_type_definition, hres, hp, hpt]
  · intro reg fuel id tt p ps pid hres hp hpt
    simp [Transcode.resolve_type_definition, hres, hp, hpt]

/-- C7 witness: the amended behaviour at concrete registries — the
named-field wrapper unwraps one step to the inner type, and an erased
type parameter fails with the concrete-type-absent error. -/
theorem resolve_unwraps_single_field_composites_witness :
    Transcode.resolve_type_definition Transcode.exWrapReg 10 0 =
      Transcode.resolve_type_definition Transcode.exWrapReg 9 1 ∧
    Transcode.resolve_type_definition Transcode.exErasedReg 3 0 =
      .error (.msg "concrete type is not present") :=
  ⟨resolve_unwraps_single_field_composites.2.1 Transcode.exWrapReg 9 0
     ⟨[], [], .composite [⟨some "inner", 1⟩]⟩ ⟨some "inner", 1⟩ rfl rfl rfl,
   resolve_unwraps_single_field_composites.2.2.2.1 Transcode.exErasedReg 2 0
     ⟨[], [⟨"T", none⟩], .composite []⟩ ⟨"T", none⟩ [] rfl rfl rfl⟩

/-- Helper: on the cyclic wrapper registry the resolver exhausts any
amount of fuel. -/
theorem resolve_cyc_aux :
    ∀ n, Transcode.resolve_type_definition Transcode.cycReg n 0 =
      .error .outOfFuel := by
  intro n
  induction n with
  | zero => rfl
  | succ k ih =>
    simp only [Transcode.resolve_type_definition]
    exact ih

/-- C9 counterexample: on the registry whose id 0 is a single-field
wrapper composite referring back to itself, resolution produces no
result for any iteration bound — the model of the source recursing
without bound. -/
theorem cyclic_wrapper_never_resolves :
    Transcode.resolver_diverges Transcode.cycReg 0 :=
  resolve_cyc_aux

/-- C9 (amended): the resolver has no cycle detection — on a cyclic
wrapper registry it recurses without bound (for every iteration cap the
fuel is exhausted before any result or rejection is produced), while on
an acyclic wrapper chain it terminates with the resolved definition. -/
theorem resolver_unbounded_on_cycles :
    Transcode.resolver_diverges Transcode.cycReg 0 ∧
    Transcode.resolve_type_definition Transcode.exWrapReg 1 1 =
      .ok (.primitive .u32) :=
  ⟨resolve_cyc_aux, rfl⟩
/-- C2 counterexample: contract account_id resolves to a 20-byte array
and node account_id to a 32-byte array; the whole check fails with a
registry error carrying the length-mismatch message, not with the
check-failed error naming the account_id field. -/
theorem array_length_mismatch_not_named :
    Transcode.compare_node_env_with_contract Transcode.exNodeReg
      Transcode.exContract 5 =
      .error (.registryError "Mismatch in array lengths") ∧
    Transcode.compare_node_env_with_contract Transcode.exNodeReg
      Transcode.exContract 5 ≠
      .error (.checkFailed "account_id") :=
  ⟨rfl, by decide⟩

/-- C2 (amended): the check walks the node's environment fields
(skipping hasher) with no partial pass — success requires every field's
comparison to hold — and the first field whose comparison is false
short-circuits the check with the check-failed error naming that field;
when both resolved types are fixed arrays, unequal lengths abort with
the length-mismatch registry error (which does not name the field),
and equal lengths compare the resolved element definitions for
equality. -/
theorem env_check_no_partial_pass :
    (∀ (node : Transcode.PortableRegistry) (contract : Transcode.InkProject)
       (fuel : Nat) (fields : List Transcode.PField),
       Transcode.env_check_fields node contract fuel fields = .ok () →
       ∀ f ∈ fields, Transcode.field_passes node contract fuel f) ∧
    (∀ (node : Transcode.PortableRegistry) (contract : Transcode.InkProject)
       (fuel : Nat) (pre : List Transcode.PField) (f : Transcode.PField)
       (rest : List Transcode.PField) (nm : String) (fd : Transcode.PTypeDef),
       (∀ p ∈ pre, Transcode.field_passes node contract fuel p) →
       f.name = some nm → nm ≠ "hasher" →
       Transcode.resolve_type_definition node fuel f.ty = .ok fd →
       Transcode.compare_type fuel nm fd contract node = .ok false →
       Transcode.env_check_fields node contract fuel (pre ++ f :: rest) =
         .error (.checkFailed nm)) ∧
    (∀ (fuel : Nat) (nm : String) (contract : Transcode.InkProject)
       (node : Transcode.PortableRegistry)
       (node_len node_tp contract_len contract_tp tt_id : Nat)
       (ne ce : Transcode.PTypeDef),
       Transcode.environment_type_id contract nm = .ok tt_id →
       Transcode.resolve_type_definition contract.registry fuel tt_id =
         .ok (.array contract_len contract_tp) →
       Transcode.resolve_type_definition node fuel node_tp = .ok ne →
       Transcode.resolve_type_definition contract.registry fuel contract_tp =
         .ok ce →
       Transcode.compare_type fuel nm (.array node_len node_tp) contract node =
         (if node_len ≠ contract_len then
            .error (.msg "Mismatch in array lengths")
          else .ok (decide (ce = ne)))) := by
  refine ⟨?_, ?_, ?_⟩
  · intro node contract fuel fields
    induction fields with
    | nil => intro _ f hf; cases hf
    | cons field rest ih =>
      intro h f hf
      simp only [Transcode.env_check_fields] at h
      cases hn : field.name with
      | none => simp only [hn] at h; exact Except.noConfusion h
      | some nm =>
        simp only [hn] at h
        by_cases hh : nm = "hasher"
        · rw [if_pos hh] at h
          cases hf with
          | head =>
            exact Or.inl (by rw [hn, hh])
          | tail _ hmem => exact ih h f hmem
        · rw [if_neg hh] at h
          cases hres : Transcode.resolve_type_definition node fuel field.ty with
          | error e => simp only [hres] at h; exact Except.noConfusion h
          | ok fd =>
            simp only [hres] at h
            cases hcmp : Transcode.compare_type fuel nm fd contract node with
            | error e => simp only [hcmp] at h; exact Except.noConfusion h
            | ok checked =>
              simp only [hcmp] at h
              cases checked with
              | false => simp only [Bool.false_eq_true, if_false] at h; exact Except.noConfusion h
              | true =>
                simp only [if_true] at h
                cases hf with
                | head =>
                  exact Or.inr ⟨nm, fd, hn, hh, hres, hcmp⟩
                | tail _ hmem => exact ih h f hmem
  · intro node contract fuel pre
    induction pre with
    | nil =>
      intro f rest nm fd _ hname hh hres hcmp
      simp only [List.nil_append, Transcode.env_check_fields, hname, if_neg hh,
        hres, hcmp, Bool.false_eq_true, if_false]
    | cons p pre' ih =>
      intro f rest nm fd hpass hname hh hres hcmp
      have hp := hpass p (List.mem_cons_self p pre')
      have hrest : ∀ q ∈ pre', Transcode.field_passes node contract fuel q :=
        fun q hq => hpass q (List.mem_cons_of_mem p hq)
      cases hp with
      | inl hhash =>
        simp only [List.cons_append, Transcode.env_check_fields, hhash, if_pos rfl]
        exact ih f rest nm fd hrest hname hh hres hcmp
      | inr hok =>
        obtain ⟨nm', fd', hn', hne', hres', hcmp'⟩ := hok
        simp only [List.cons_append, Transcode.env_check_fields, hn',
          if_neg hne', hres', hcmp', if_true]
        exact ih f rest nm fd hrest hname hh hres hcmp
  · intro fuel nm contract node node_len node_tp contract_len contract_tp
      tt_id ne ce h1 h2 h3 h4
    by_cases hlen : node_len = contract_len
    · simp [Transcode.compare_type, h1, h2, h3, h4, hlen]
    · simp [Transcode.compare_type, h1, h2, h3, hlen]

/-- C2 witness: the check-failed error names the mismatching field for a
shape mismatch, and the array clause at concrete registries yields the
length-mismatch registry error. -/
theorem env_check_no_partial_pass_witness :
    Transcode.env_check_fields Transcode.exNodeReg2 Transcode.exContract2 5
      [⟨some "account_id", 1⟩] = .error (.checkFailed "account_id") ∧
    Transcode.compare_type 5 "account_id" (.array 32 2) Transcode.exContract
      Transcode.exNodeReg =
      (if (32 : Nat) ≠ 20 then
         .error (.msg "Mismatch in array lengths")
       else .ok (decide (Transcode.PTypeDef.primitive .u8 = .primitive .u8))) :=
  ⟨env_check_no_partial_pass.2.1 Transcode.exNodeReg2 Transcode.exContract2 5
     [] ⟨some "account_id", 1⟩ [] "account_id" (.primitive .u32)
     (fun p hp => absurd hp (List.not_mem_nil p)) rfl (by decide) rfl rfl,
   env_check_no_partial_pass.2.2 5 "account_id" Transcode.exContract
     Transcode.exNodeReg 32 2 20 1 0 (.primitive .u8) (.primitive .u8)
     rfl rfl rfl rfl⟩
